import Mathlib

/-!
Verification of the research-agent core: a shallow embedding in Lean 4 of the
hybrid retrieval engine (src/research_agent/retrieval.py), the tool executor
(src/research_agent/tools.py), the bounded context memory
(src/research_agent/memory.py), the reasoning-service client response handling
(src/research_agent/grok.py), and the orchestration loop
(src/research_agent/agent.py).

Modelling conventions:
- Python floats are modelled as real numbers (exact arithmetic); serialized
  scores, which the code rounds to 4 decimal places, are modelled as rationals.
- Python dicts with string keys are modelled as association lists or as
  structures with `Option` fields (a missing or null key is `none`,
  `dict.get(k, d)` is `Option.getD`).
- The retriever caches per-chunk token lists and vectors in dicts keyed by
  chunk id; the embedding recomputes them per chunk, which coincides with the
  cache whenever chunk ids are unique (the data-model invariant of the spec).
- `list.sort(key=..., reverse=True)` is modelled with `List.insertionSort`
  over the corresponding descending relation; the claims proved here do not
  depend on which stable sorting algorithm is used.
-/

namespace ResearchAgent

/-! ## Retrieval engine (src/research_agent/retrieval.py) -/

/-- Token characters of `TOKEN_PATTERN = [0-9A-Za-z一-鿿]`. -/
def isTokenChar (c : Char) : Bool :=
  (('0' ≤ c && c ≤ '9') || ('A' ≤ c && c ≤ 'Z') || ('a' ≤ c && c ≤ 'z')
    || (0x4e00 ≤ c.toNat && c.toNat ≤ 0x9fff))

/-- Splits a character list into the maximal runs of token characters,
mirroring `TOKEN_PATTERN.findall`.  The accumulator holds the current run in
reverse order. -/
def tokenizeAux : List Char → List Char → List String
  | [], acc => if acc = [] then [] else [String.mk acc.reverse]
  | c :: rest, acc =>
      if isTokenChar c then tokenizeAux rest (c :: acc)
      else if acc = [] then tokenizeAux rest []
      else String.mk acc.reverse :: tokenizeAux rest []

/-- Function `tokenize`: case-folded maximal alphanumeric/CJK runs
(`[token.lower() for token in TOKEN_PATTERN.findall(text)]`). -/
def tokenize (s : String) : List String :=
  (tokenizeAux s.toList []).map (fun t => t.map Char.toLower)

/-- A tf-idf weight vector, `dict[str, float]` in the source.  The vectors
built by `_tfidf_vector` have pairwise distinct keys. -/
abbrev Vec : Type := List (String × ℝ)

/-- Dictionary access `vec[tok]` (0 when absent; the source only reads keys
that are present). -/
def vecLookup (v : Vec) (t : String) : ℝ :=
  match List.find? (fun p => p.1 == t) v with
  | some p => p.2
  | none => 0

/-- The keys common to both vectors, `set(vec_a).intersection(vec_b)`,
listed in the key order of the first vector. -/
def vecCommon (a b : Vec) : Vec :=
  List.filter (fun p => List.any b (fun q => q.1 == p.1)) a

/-- The value `sum(vec_a[tok] * vec_b[tok] for tok in common)`. -/
def dotCommon (a b : Vec) : ℝ :=
  ((vecCommon a b).map (fun p => p.2 * vecLookup b p.1)).sum

/-- The value `math.sqrt(sum(v * v for v in vec.values()))`. -/
noncomputable def l2norm (v : Vec) : ℝ :=
  Real.sqrt ((v.map (fun p => p.2 * p.2)).sum)

open Classical in
/-- Function `cosine_similarity` from retrieval.py. -/
noncomputable def cosine_similarity (a b : Vec) : ℝ :=
  if a = [] ∨ b = [] then 0
  else if l2norm a = 0 ∨ l2norm b = 0 then 0
  else dotCommon a b / (l2norm a * l2norm b)

/-- Structure `PaperChunk` from schema.py. -/
structure PaperChunk where
  chunk_id : String
  paper_id : String
  title : String
  year : ℤ
  language : String
  «section» : String
  text : String
  citations : List String
  keywords : List String
  stance : String
deriving DecidableEq, Repr

/-- Structure `RetrievalHit` from schema.py (scores as real numbers). -/
structure RetrievalHit where
  chunk : PaperChunk
  keyword_score : ℝ
  semantic_score : ℝ
  hybrid_score : ℝ

/-- The token list of one chunk:
`tokenize(" ".join([chunk.title, chunk.text, " ".join(chunk.keywords)]))`. -/
def chunkTokensOf (c : PaperChunk) : List String :=
  tokenize (c.title ++ " " ++ c.text ++ " " ++ String.intercalate " " c.keywords)

/-- The inverse document frequency table as a total function.  `doc_freq`
counts, per token, the chunks whose token set contains it; tokens absent from
every chunk are absent from `self.idf`, and `self.idf.get(tok, 1.0)` yields 1
for them. -/
noncomputable def idfOf (chunks : List PaperChunk) (tok : String) : ℝ :=
  let df := (chunks.filter (fun c => tok ∈ chunkTokensOf c)).length
  if df = 0 then 1
  else Real.log ((1 + (max chunks.length 1 : ℕ)) / (1 + (df : ℕ))) + 1

/-- Method `_tfidf_vector`: term frequency (count over total, total at least 1)
times idf, one entry per distinct token. -/
noncomputable def tfidfVector (idf : String → ℝ) (tokens : List String) : Vec :=
  tokens.dedup.map
    (fun tok => (tok, ((tokens.count tok : ℕ) : ℝ) / ((max tokens.length 1 : ℕ) : ℝ) * idf tok))

/-- The distinct query tokens, `query_set = set(query_tokens)`. -/
def queryTokenSet (query : String) : List String := (tokenize query).dedup

/-- The distinct chunk tokens, `token_set = set(tokens)`. -/
def chunkTokenSet (c : PaperChunk) : List String := (chunkTokensOf c).dedup

/-- The intersection `overlap = query_set.intersection(token_set)`. -/
def overlapOf (query : String) (c : PaperChunk) : List String :=
  (queryTokenSet query).filter (fun t => t ∈ chunkTokenSet c)

/-- The loop body of `HybridRetriever.search` that scores one chunk:
keyword score, semantic score and hybrid score, in that order. -/
noncomputable def hitScores (chunks : List PaperChunk) (alpha : ℝ) (query : String)
    (chunk : PaperChunk) : ℝ × ℝ × ℝ :=
  (((overlapOf query chunk).length : ℝ) / ((max (queryTokenSet query).length 1 : ℕ) : ℝ),
   cosine_similarity (tfidfVector (idfOf chunks) (tokenize query))
     (tfidfVector (idfOf chunks) (chunkTokensOf chunk)),
   alpha * cosine_similarity (tfidfVector (idfOf chunks) (tokenize query))
       (tfidfVector (idfOf chunks) (chunkTokensOf chunk))
     + (1 - alpha) * (((overlapOf query chunk).length : ℝ)
         / ((max (queryTokenSet query).length 1 : ℕ) : ℝ)))

/-- The sort key of `hits.sort(key=lambda item: (item.hybrid_score,
item.semantic_score, item.chunk.year), reverse=True)`, as a lexicographic
triple. -/
def hitSortKey (h : RetrievalHit) : Lex (ℝ × Lex (ℝ × ℤ)) :=
  toLex (h.hybrid_score, toLex (h.semantic_score, h.chunk.year))

/-- Holds when `a` may precede `b` in the descending sort: the key of `b` is at most the
key of `a`. -/
def hitBefore (a b : RetrievalHit) : Prop := hitSortKey b ≤ hitSortKey a

noncomputable instance : DecidableRel hitBefore :=
  fun a b => inferInstanceAs (Decidable (hitSortKey b ≤ hitSortKey a))

instance : IsTotal RetrievalHit hitBefore :=
  ⟨fun a b => (le_total (hitSortKey b) (hitSortKey a)).imp id id⟩

instance : IsTrans RetrievalHit hitBefore :=
  ⟨fun _ _ _ hab hbc => le_trans hbc hab⟩

/-- Method `HybridRetriever.search`: score every chunk, drop those with
`hybrid_score <= 0`, sort descending by (hybrid, semantic, year), truncate to
`top_k`. -/
noncomputable def search (chunks : List PaperChunk) (alpha : ℝ) (query : String)
    (top_k : ℕ) : List RetrievalHit :=
  (((chunks.filterMap (fun chunk =>
        if (hitScores chunks alpha query chunk).2.2 ≤ 0 then none
        else some ⟨chunk, (hitScores chunks alpha query chunk).1,
          (hitScores chunks alpha query chunk).2.1,
          (hitScores chunks alpha query chunk).2.2⟩)).insertionSort
      hitBefore)).take top_k

/-! ## Serialization and tool executor (src/research_agent/schema.py, tools.py) -/

/-- Python `round(x, 4)` used by `RetrievalHit.to_dict`, modelled as the
nearest 4-decimal rational (the source rounds half to even and returns a
float; no claim here depends on the rounded value). -/
noncomputable def round4 (x : ℝ) : ℚ :=
  (round (x * 10000) : ℤ) / 10000

/-- The dictionary produced by `RetrievalHit.to_dict`. -/
structure SerializedHit where
  chunk_id : String
  paper_id : String
  title : String
  year : ℤ
  language : String
  «section» : String
  text : String
  citations : List String
  keywords : List String
  stance : String
  keyword_score : ℚ
  semantic_score : ℚ
  hybrid_score : ℚ
deriving DecidableEq, Repr

/-- Method `RetrievalHit.to_dict` from schema.py. -/
noncomputable def toDict (h : RetrievalHit) : SerializedHit :=
  { chunk_id := h.chunk.chunk_id
    paper_id := h.chunk.paper_id
    title := h.chunk.title
    year := h.chunk.year
    language := h.chunk.language
    «section» := h.chunk.«section»
    text := h.chunk.text
    citations := h.chunk.citations
    keywords := h.chunk.keywords
    stance := h.chunk.stance
    keyword_score := round4 h.keyword_score
    semantic_score := round4 h.semantic_score
    hybrid_score := round4 h.hybrid_score }

/-- The ambiguity signal dictionary attached to observations. -/
structure Ambiguity where
  low_coverage : Bool
  conflicting_stances : Bool
deriving DecidableEq, Repr

/-- A tool observation dictionary.  Keys that a given tool omits are `none`;
the loop reads them with `observation.get(key, default)`. -/
structure Observation where
  tool : String
  query : Option String := none
  hits : Option (List SerializedHit) := none
  citations : Option (List String) := none
  ambiguity : Option Ambiguity := none
  error : Option String := none
  paper_id : Option String := none
  title : Option String := none
  year : Option ℤ := none
  outgoing : Option (List String) := none
  incoming : Option (List String) := none
deriving DecidableEq, Repr

/-- Structure `PaperDocument` from schema.py. -/
structure PaperDocument where
  paper_id : String
  title : String
  year : ℤ
  language : String
  venue : String
  authors : List String
  abstract : String
  methodology : String
  findings : String
  limitations : String
  citations : List String
  keywords : List String
  stance : String
deriving DecidableEq, Repr

/-- The citation string `"[{id}] {title} ({year})"` built for each hit. -/
def hitCitation (item : SerializedHit) : String :=
  "[" ++ item.paper_id ++ "] " ++ item.title ++ " (" ++ toString item.year ++ ")"

/-- Method `ToolExecutor.hybrid_search`. -/
noncomputable def hybridSearch (chunks : List PaperChunk) (alpha : ℝ)
    (query : String) (top_k : ℕ) : Observation :=
  let serialized := (search chunks alpha query top_k).map toDict
  let unique_papers := (serialized.map (fun item => item.paper_id)).dedup
  let stances := (serialized.map (fun item => item.stance)).dedup
  { tool := "hybrid_search"
    query := some query
    hits := some serialized
    citations := some (serialized.map hitCitation)
    ambiguity := some
      { low_coverage := decide (unique_papers.length < 2)
        conflicting_stances := decide (1 < stances.length) } }

/-- Method `ToolExecutor.timeline_scan`: retrieve with top_k inflated to at least 10,
re-sort ascending by year (Python stable sort), truncate to top_k. -/
noncomputable def timelineScan (chunks : List PaperChunk) (alpha : ℝ)
    (query : String) (top_k : ℕ) : Observation :=
  let serialized := (search chunks alpha query (max top_k 10)).map toDict
  let sorted := serialized.insertionSort (fun a b => a.year ≤ b.year)
  let sliced := sorted.take top_k
  { tool := "timeline_scan"
    query := some query
    hits := some sliced
    citations := some (sliced.map hitCitation)
    ambiguity := some
      { low_coverage := decide (sliced.length < 2)
        conflicting_stances := false } }

/-- Lookup `self.paper_index.get(paper_id)` where `paper_index` is a dict
comprehension over `papers`; a duplicated paper id keeps the last entry. -/
def paperIndexGet (papers : List PaperDocument) (pid : String) : Option PaperDocument :=
  papers.reverse.find? (fun p => p.paper_id == pid)

/-- Lookup `self.cited_by_index.get(paper_id, [])`: the ids of papers whose citation
list contains `pid`, kept only when `pid` resolves to a known paper id, in
corpus order. -/
def citedByIndexGet (papers : List PaperDocument) (pid : String) : List String :=
  if papers.any (fun p => p.paper_id == pid) then
    ((papers.filter (fun p => pid ∈ p.citations)).map (fun p => p.paper_id))
  else []

/-- Method `ToolExecutor.citation_graph`. -/
def citationGraph (papers : List PaperDocument) (pid : String) : Observation :=
  match paperIndexGet papers pid with
  | none =>
      { tool := "citation_graph"
        paper_id := some pid
        error := some "paper not found"
        citations := some []
        ambiguity := some { low_coverage := true, conflicting_stances := false } }
  | some paper =>
      let outgoing := paper.citations
      let incoming := citedByIndexGet papers pid
      { tool := "citation_graph"
        paper_id := some paper.paper_id
        title := some paper.title
        year := some paper.year
        outgoing := some outgoing
        incoming := some incoming
        citations := some
          (("[" ++ paper.paper_id ++ "] " ++ paper.title ++ " (" ++ toString paper.year ++ ")")
            :: (outgoing ++ incoming).map (fun cid => "[" ++ cid ++ "] cited relation"))
        ambiguity := some
          { low_coverage := decide (outgoing.length + incoming.length < 2)
            conflicting_stances := false } }

/-- The keyword arguments that `ToolExecutor.run` reads from `kwargs`. -/
structure ToolKwargs where
  query : Option String := none
  top_k : Option ℕ := none
  paper_id : Option String := none
deriving DecidableEq, Repr

/-- Method `ToolExecutor.run`: string-keyed dispatch over the fixed registry; any
other tool name yields the error observation `{"tool": name, "error":
"unknown tool"}` rather than an exception. -/
noncomputable def toolRun (chunks : List PaperChunk) (alpha : ℝ)
    (papers : List PaperDocument) (tool_name : String) (kw : ToolKwargs) : Observation :=
  if tool_name = "hybrid_search" then
    hybridSearch chunks alpha (kw.query.getD "") (kw.top_k.getD 6)
  else if tool_name = "timeline_scan" then
    timelineScan chunks alpha (kw.query.getD "") (kw.top_k.getD 6)
  else if tool_name = "citation_graph" then
    citationGraph papers (kw.paper_id.getD "")
  else
    { tool := tool_name, error := some "unknown tool" }

/-! ## Context memory (src/research_agent/memory.py) -/

/-- Structure `Event` from schema.py. -/
structure Event where
  role : String
  content : String
  citations : List String
deriving DecidableEq, Repr

/-- Operation `collections.Counter.update` on an insertion-ordered counter: existing
keys are incremented in place, new keys are appended. -/
def counterUpdate (counter : List (String × ℕ)) (citations : List String) :
    List (String × ℕ) :=
  citations.foldl
    (fun acc c =>
      if acc.any (fun p => p.1 == c) then
        acc.map (fun p => if p.1 == c then (p.1, p.2 + 1) else p)
      else acc ++ [(c, 1)])
    counter

/-- The `ContextMemory` state. -/
structure ContextMemory where
  max_events : ℕ
  compress_batch : ℕ
  events : List Event
  summary : List String
  citation_counter : List (String × ℕ)
deriving DecidableEq, Repr

/-- A fresh `ContextMemory(max_events, compress_batch)`. -/
def mkContextMemory (max_events : ℕ) (compress_batch : ℕ) : ContextMemory :=
  { max_events := max_events, compress_batch := compress_batch
    events := [], summary := [], citation_counter := [] }

/-- Method `ContextMemory._compress_oldest`: remove the oldest `compress_batch`
events and fold them into one compact summary string. -/
def compressOldest (m : ContextMemory) : ContextMemory :=
  let batch := m.events.take m.compress_batch
  { m with
    events := m.events.drop m.compress_batch
    summary := m.summary ++
      [String.intercalate " | " (batch.map (fun e => e.role ++ ":" ++ e.content.take 180))] }

/-- Method `ContextMemory.add_event`: append the event, update the citation counter,
compress when the log exceeds `max_events`. -/
def addEvent (m : ContextMemory) (role content : String) (citations : List String) :
    ContextMemory :=
  let m1 := { m with
    events := m.events ++ [{ role := role, content := content, citations := citations }]
    citation_counter := counterUpdate m.citation_counter citations }
  if m1.max_events < m1.events.length then compressOldest m1 else m1

/-! ## Reasoning-service client (src/research_agent/grok.py)

The transport (`_chat`) and JSON extraction (`_extract_json`) are modelled by
passing their combined outcome as an explicit argument: the parsed response
dictionary, with `none` standing for a response in which the relevant key is
missing or falsy.  The branch on `self.settings.grok_mock or not
self.settings.grok_api_key` is kept verbatim. -/

/-- A planned step dictionary `{id, sub_question, tool, tool_args}`. -/
structure PStep where
  id : Option String := none
  sub_question : Option String := none
  tool : Option String := none
  tool_args : ToolKwargs := {}
deriving DecidableEq, Repr

/-- A plan response dictionary; `steps := none` models a response whose
`steps` key is missing, null or the empty list (all falsy in the guard
`if not parsed.get("steps")`).  A present, nonempty list is `some`. -/
structure PlanDict where
  objective : Option String := none
  steps : Option (List PStep) := none
deriving DecidableEq, Repr

/-- A reflection response dictionary. -/
structure ReflectionDict where
  replan : Option Bool := none
  reason : Option String := none
  new_steps : Option (List PStep) := none
deriving DecidableEq, Repr

/-- A summary response dictionary.  Each field is optional so that a parsed
response whose `answer` key is missing, or present but empty, is
representable; `summarize` never inspects these fields. -/
structure SummaryDict where
  answer : Option String := none
  evidence_points : Option (List String) := none
  risks : Option (List String) := none
deriving DecidableEq, Repr

/-- Method `GrokClient._default_plan`. -/
def defaultPlan (query : String) : PlanDict :=
  { objective := some query
    steps := some
      [ { id := some "s1"
          sub_question := some ("Break down scope and time range for: " ++ query)
          tool := some "timeline_scan"
          tool_args := { query := some query, top_k := some 5 } }
      , { id := some "s2"
          sub_question := some query
          tool := some "hybrid_search"
          tool_args := { query := some query, top_k := some 6 } }
      , { id := some "s3"
          sub_question := some (query ++ " contradictory multilingual evidence")
          tool := some "hybrid_search"
          tool_args := { query := some (query ++ " contradictory multilingual"), top_k := some 6 } }
      , { id := some "s4"
          sub_question := some "Inspect citation lineage of strongest source"
          tool := some "citation_graph"
          tool_args := { paper_id := some "auto" } } ] }

/-- Method `GrokClient._default_summary`. -/
def defaultSummary (query : String) (evidence : List SerializedHit) : SummaryDict :=
  { answer := some ("Query: " ++ query ++ "\n" ++
      "Synthesis: Hybrid retrieval over mock paper corpus found converging evidence " ++
      "that citation-grounded retrieval improves review quality, but results degrade " ++
      "when PDF parsing is noisy or multilingual coverage is weak.")
    evidence_points := some ((evidence.take 4).map (fun item =>
      "- [" ++ item.paper_id ++ "] " ++ item.title ++ " (" ++ toString item.year ++ "), "
        ++ item.«section»))
    risks := some ["Potential benchmark inconsistency across venues",
                   "Limited longitudinal validation beyond 2025"] }

/-- Method `GrokClient.plan` as a function of the parsed live response: in mock mode
or without an api key the default plan is returned without any request;
otherwise a response with missing or empty `steps` falls back to the default
plan, and any other response is returned as is. -/
def planFromResponse (grok_mock : Bool) (grok_api_key : String) (query : String)
    (parsed : PlanDict) : PlanDict :=
  if grok_mock || grok_api_key == "" then defaultPlan query
  else if parsed.steps.getD [] = [] then defaultPlan query
  else parsed

/-- Python truthiness of an optional string (`step.get("sub_question")`). -/
def truthyStr : Option String → Bool
  | some s => s != ""
  | none => false

/-- Method `GrokClient.reflect` as a function of the parsed live response, with
`parsed := none` when the `"replan"` key is absent.  The mock branch derives
the replan decision from the observation ambiguity flags. -/
def reflectFromResponse (grok_mock : Bool) (grok_api_key : String) (step : PStep)
    (observation : Observation) (parsed : Option ReflectionDict) : ReflectionDict :=
  if grok_mock || grok_api_key == "" then
    let ambiguity := observation.ambiguity.getD { low_coverage := false, conflicting_stances := false }
    let low_coverage := ambiguity.low_coverage
    let conflicts := ambiguity.conflicting_stances
    let replan := low_coverage || conflicts
    let reason := if low_coverage then "evidence coverage is narrow" else "conflicting findings"
    let reason := if replan then reason else "sufficient evidence for next step"
    let new_steps : List PStep :=
      if replan then
        [ { id := some ("r-" ++ step.id.getD "x")
            sub_question := some ("Resolve ambiguity for: " ++ step.sub_question.getD "")
            tool := some "hybrid_search"
            tool_args := { query := some (step.sub_question.getD "" ++ " replication study limitations")
                           top_k := some 6 } } ]
      else []
    { replan := some replan, reason := some reason, new_steps := some new_steps }
  else
    match parsed with
    | none => { replan := some false, reason := some "invalid response", new_steps := some [] }
    | some r => r

/-- Method `GrokClient.summarize` as a function of the parsed live response, with
`parsed := none` when `_extract_json` produced an empty (falsy) dictionary.
The guard is `if not parsed:` on the whole dictionary, so a nonempty parsed
response is returned unchanged even when its `answer` is missing or empty. -/
def summarizeFromResponse (grok_mock : Bool) (grok_api_key : String) (query : String)
    (evidence : List SerializedHit) (parsed : Option SummaryDict) : SummaryDict :=
  if grok_mock || grok_api_key == "" then defaultSummary query evidence
  else
    match parsed with
    | none => defaultSummary query evidence
    | some s => s

/-! ## Orchestration loop (src/research_agent/agent.py) -/

/-- Lookup `pooled_hits.get(chunk_id)`: lookup in the insertion-ordered pool. -/
def poolLookup (pool : List (String × SerializedHit)) (id : String) :
    Option SerializedHit :=
  (pool.find? (fun p => p.1 == id)).map (fun p => p.2)

/-- One merge of a hit into the evidence pool (agent.py lines 186-189):
`if current is None or hit["hybrid_score"] > current["hybrid_score"]:
pooled_hits[hit["chunk_id"]] = hit`.  A new key is appended, an existing key
is overwritten in place. -/
def poolMerge (pool : List (String × SerializedHit)) (hit : SerializedHit) :
    List (String × SerializedHit) :=
  match poolLookup pool hit.chunk_id with
  | none => pool ++ [(hit.chunk_id, hit)]
  | some current =>
      if current.hybrid_score < hit.hybrid_score then
        pool.map (fun p => if p.1 == hit.chunk_id then (p.1, hit) else p)
      else pool

/-- Python `a or b` on an optional string: the stored value when it is truthy
(present and nonempty), otherwise the fallback. -/
def pyOrStr (a : Option String) (b : String) : String :=
  match a with
  | some s => if s == "" then b else s
  | none => b

/-- Index `self.papers[0].paper_id`; Python raises IndexError on an empty corpus,
theorems about this resolution therefore assume a nonempty `papers`. -/
def firstPaperId (papers : List PaperDocument) : String :=
  match papers with
  | [] => ""
  | p :: _ => p.paper_id

/-- Test `paper_id in (None, "", "auto")`. -/
def paperIdUnsetEmptyOrAuto : Option String → Bool
  | none => true
  | some s => s == "" || s == "auto"

/-- Statement `if "query" not in args and step.get("sub_question"): args["query"] =
step["sub_question"]` (agent.py line 112). -/
def applyQueryFallback (step : PStep) (args : ToolKwargs) : ToolKwargs :=
  if args.query.isNone && truthyStr step.sub_question then
    { args with query := step.sub_question }
  else args

/-- Statement `args.setdefault("top_k", self.settings.top_k)` (agent.py line 114). -/
def applyTopKDefault (settings_top_k : ℕ) (args : ToolKwargs) : ToolKwargs :=
  if args.top_k.isNone then { args with top_k := some settings_top_k } else args

/-- The `citation_graph` paper_id substitution (agent.py lines 116-119):
when paper_id is unset, empty or auto, substitute `self.last_primary_paper
or self.papers[0].paper_id`. -/
def applyCitationPaperId (papers : List PaperDocument)
    (last_primary_paper : Option String) (tool : String) (args : ToolKwargs) :
    ToolKwargs :=
  if tool == "citation_graph" && paperIdUnsetEmptyOrAuto args.paper_id then
    { args with paper_id := some (pyOrStr last_primary_paper (firstPaperId papers)) }
  else args

/-- The argument-resolution prefix of `ResearchPaperAgent._run_step`
(agent.py lines 110-119): default tool, query fallback to the sub-question,
default top_k, and the `citation_graph` paper_id substitution, applied in the
order of the source. -/
def resolveStepArgs (settings_top_k : ℕ) (papers : List PaperDocument)
    (last_primary_paper : Option String) (step : PStep) : String × ToolKwargs :=
  let tool := step.tool.getD "hybrid_search"
  (tool,
    applyCitationPaperId papers last_primary_paper tool
      (applyTopKDefault settings_top_k (applyQueryFallback step step.tool_args)))

/-- The `last_primary_paper` update at the end of `_run_step`
(agent.py lines 122-124): the paper id of the first hit when the observation
produced hits, otherwise unchanged. -/
def updateLastPrimary (last : Option String) (observation : Observation) :
    Option String :=
  match observation.hits.getD [] with
  | [] => last
  | h :: _ => some h.paper_id

/-- The iteration skeleton of `ResearchPaperAgent.run` (agent.py lines
168-244) restricted to the step queue and the executed-step counter:
`for _ in range(max_iterations)` pops a step per iteration, breaks on an
empty queue, and prepends `new_steps` when the reflection for that step has
a truthy `replan` and a truthy (nonempty) `new_steps`.  The reflection
returned by the service for the i-th executed step is given by the oracle
`reflections i`.  The result is the final `executed_count`. -/
def loopExecuted (reflections : ℕ → ReflectionDict) :
    ℕ → List PStep → ℕ → ℕ
  | 0, _, executed => executed
  | _ + 1, [], executed => executed
  | fuel + 1, _ :: rest, executed =>
      let r := reflections executed
      let queue :=
        if (r.replan.getD false) && !(r.new_steps.getD []).isEmpty then
          r.new_steps.getD [] ++ rest
        else rest
      loopExecuted reflections fuel queue (executed + 1)

/-! ## The plan request call (agent.py lines 139-144 and grok.py line 113)

Python binds a keyword-argument call by matching every supplied keyword
against the named parameters of the callee; with no `**kwargs` in the
signature, an unmatched keyword raises `TypeError` before the body runs. -/

/-- The named parameters of the bundled `GrokClient.plan` (grok.py line 113),
excluding `self`. -/
def grokClientPlanParams : List String := ["query", "memory", "tools"]

/-- The keywords supplied by the single plan request that
`ResearchPaperAgent.run` issues (agent.py lines 139-144). -/
def agentPlanCallKeywords : List String :=
  ["query", "memory", "tools", "orchestration_profile"]

/-- A Python keyword-only call binds without `TypeError` exactly when every
supplied keyword names a parameter and every parameter receives a keyword
(none of `GrokClient.plan`'s parameters has a default). -/
def pyKwCallAccepted (params supplied : List String) : Bool :=
  supplied.all (fun k => params.contains k) && params.all (fun p => supplied.contains p)

/-! ## Specification-side scoring definitions

These two definitions follow the wording of the specification (section 4.1)
rather than the code; the refinement theorem for the scoring formulas
compares the code-side scores against them. -/

/-- Spec wording: `keyword_score` is the size of the intersection of the
query token set and the chunk token set divided by the size of the query
token set, and 0 when the query has no tokens. -/
noncomputable def keywordScoreSpec (query_set chunk_set : List String) : ℝ :=
  if query_set = [] then 0
  else ((query_set.filter (fun t => t ∈ chunk_set)).length : ℝ) / (query_set.length : ℝ)

open Classical in
/-- Spec wording: `semantic_score` is the cosine similarity between the query
vector and the chunk vector, and 0 when either vector has L2 norm 0 or when
no tokens overlap. -/
noncomputable def semanticScoreSpec (a b : Vec) : ℝ :=
  if l2norm a = 0 ∨ l2norm b = 0 ∨ vecCommon a b = [] then 0
  else dotCommon a b / (l2norm a * l2norm b)

/-! ## Concrete values used by witnesses and counterexamples -/

/-- A serialized hit with chunk id c1 and hybrid score 1. -/
def exHitA : SerializedHit :=
  { chunk_id := "c1", paper_id := "pA", title := "Paper A", year := 2024
    language := "en", «section» := "abstract", text := "t"
    citations := [], keywords := [], stance := "mixed"
    keyword_score := 0, semantic_score := 0, hybrid_score := 1 }

/-- The same chunk id with the higher hybrid score 2. -/
def exHitB : SerializedHit := { exHitA with hybrid_score := 2 }

/-- A hit whose paper id is the empty string, as produced for a corpus
document whose `paper_id` field is empty. -/
def exHitEmptyPid : SerializedHit := { exHitA with chunk_id := "c2", paper_id := "" }

/-- A one-document corpus with paper id pA. -/
def paperEx : PaperDocument :=
  { paper_id := "pA", title := "Paper A", year := 2024, language := "en"
    venue := "v", authors := [], abstract := "a", methodology := "m"
    findings := "f", limitations := "l", citations := [], keywords := []
    stance := "mixed" }

/-- A step that invokes `citation_graph` with `paper_id="auto"`. -/
def stepAuto : PStep :=
  { id := some "s4", sub_question := some "Inspect citation lineage"
    tool := some "citation_graph", tool_args := { paper_id := some "auto" } }

/-- The evidence-pool invariant over the hits processed so far: every pooled
entry is one of the processed hits, is stored under its own chunk id, and has
the maximum hybrid score among the processed hits with that chunk id; and
every processed hit has an entry under its chunk id. -/
def PoolInv (hs : List SerializedHit) (pool : List (String × SerializedHit)) : Prop :=
  (∀ id ph, poolLookup pool id = some ph →
      ph ∈ hs ∧ ph.chunk_id = id ∧
        ∀ h ∈ hs, h.chunk_id = id → h.hybrid_score ≤ ph.hybrid_score) ∧
  ∀ h ∈ hs, poolLookup pool h.chunk_id ≠ none

/-! ## Theorems -/

/-- C2: the plan request issued by the orchestration loop supplies the four
keywords query, memory, tools and orchestration_profile, but the bundled
GrokClient.plan declares only the parameters query, memory and tools, so the
call does not bind: every run with the bundled client raises TypeError at the
planning call. -/
theorem plan_call_not_accepted_by_bundled_client :
    pyKwCallAccepted grokClientPlanParams agentPlanCallKeywords = false := by
  decide

lemma loopExecuted_le_add (reflections : ℕ → ReflectionDict) :
    ∀ (fuel : ℕ) (queue : List PStep) (executed : ℕ),
      loopExecuted reflections fuel queue executed ≤ executed + fuel := by
  intro fuel
  induction fuel with
  | zero => intro queue executed; simp [loopExecuted]
  | succ n ih =>
      intro queue executed
      cases queue with
      | nil => simp [loopExecuted]
      | cons s rest =>
          simp only [loopExecuted]
          exact le_trans (ih _ (executed + 1)) (by omega)

/-- C6: for every plan and every sequence of reflection responses, including
ones that always request replanning and prepend new steps, the loop executes
at most max_iterations steps before proceeding to summarization. -/
theorem loop_executes_at_most_max_iterations (reflections : ℕ → ReflectionDict)
    (max_iterations : ℕ) (steps : List PStep) :
    loopExecuted reflections max_iterations steps 0 ≤ max_iterations := by
  simpa using loopExecuted_le_add reflections max_iterations steps 0

/-- C10: the observation of timeline_scan has low_coverage true exactly when
the truncated hit list has fewer than 2 hits, and conflicting_stances is
always false. -/
theorem timeline_scan_ambiguity_flags (chunks : List PaperChunk) (alpha : ℝ)
    (query : String) (top_k : ℕ) :
    (timelineScan chunks alpha query top_k).ambiguity =
      some
        { low_coverage :=
            decide (((timelineScan chunks alpha query top_k).hits.getD []).length < 2)
          conflicting_stances := false } := by
  rfl

/-- C8: a tool name outside the fixed registry produces the error observation
rather than an exception, and the loop reads it as zero hits and zero
citations, leaving the evidence pool unchanged, and continues. -/
theorem unknown_tool_error_observation (chunks : List PaperChunk) (alpha : ℝ)
    (papers : List PaperDocument) (tool_name : String) (kw : ToolKwargs)
    (h1 : tool_name ≠ "hybrid_search") (h2 : tool_name ≠ "timeline_scan")
    (h3 : tool_name ≠ "citation_graph") :
    toolRun chunks alpha papers tool_name kw
        = { tool := tool_name, error := some "unknown tool" } ∧
      (toolRun chunks alpha papers tool_name kw).hits.getD [] = [] ∧
      (toolRun chunks alpha papers tool_name kw).citations.getD [] = [] ∧
      ∀ pool, List.foldl poolMerge pool
          ((toolRun chunks alpha papers tool_name kw).hits.getD []) = pool := by
  have he : toolRun chunks alpha papers tool_name kw
      = { tool := tool_name, error := some "unknown tool" } := by
    unfold toolRun
    rw [if_neg h1, if_neg h2, if_neg h3]
  refine ⟨he, by rw [he]; rfl, by rw [he]; rfl, ?_⟩
  intro pool
  rw [he]
  rfl

/-- Witness for C8 at the concrete unknown tool name web_search. -/
theorem unknown_tool_error_observation_witness :
    toolRun [] 0 [] "web_search" {} = { tool := "web_search", error := some "unknown tool" } :=
  (unknown_tool_error_observation [] 0 [] "web_search" {}
    (by decide) (by decide) (by decide)).1

/-- C3 counterexample: with the defaults max_events = 12 and
compress_batch = 4, after 13 > 12 additions the live event count is 9, not
max_events = 12: the overflow compression removes a batch of 4 events, so the
count does not equal max_events exactly. -/
theorem memory_overflow_count_counterexample :
    12 < 13 ∧
      ((List.range 13).foldl (fun m _ => addEvent m "tool" "x" [])
          (mkContextMemory 12 4)).events.length = 9 ∧
      ¬ ((List.range 13).foldl (fun m _ => addEvent m "tool" "x" [])
          (mkContextMemory 12 4)).events.length = 12 := by
  refine ⟨by decide, by decide, by decide⟩

lemma addEvent_max_events (m : ContextMemory) (role content : String)
    (cits : List String) : (addEvent m role content cits).max_events = m.max_events := by
  simp only [addEvent, compressOldest]
  split <;> rfl

lemma addEvent_compress_batch (m : ContextMemory) (role content : String)
    (cits : List String) :
    (addEvent m role content cits).compress_batch = m.compress_batch := by
  simp only [addEvent, compressOldest]
  split <;> rfl

lemma addEvent_events_le (m : ContextMemory) (hcb : 1 ≤ m.compress_batch)
    (hlen : m.events.length ≤ m.max_events) (role content : String)
    (cits : List String) :
    (addEvent m role content cits).events.length ≤ m.max_events := by
  simp only [addEvent, compressOldest]
  split
  · simp only [List.length_drop, List.length_append, List.length_cons,
      List.length_nil]
    omega
  · simp only [List.length_append, List.length_cons, List.length_nil] at *
    omega

lemma foldl_addEvent_le (adds : List (String × String × List String)) :
    ∀ m : ContextMemory, 1 ≤ m.compress_batch → m.events.length ≤ m.max_events →
      (adds.foldl (fun acc a => addEvent acc a.1 a.2.1 a.2.2) m).events.length
        ≤ m.max_events := by
  induction adds with
  | nil => intro m _ h; simpa using h
  | cons a rest ih =>
      intro m hcb hlen
      have h1 := addEvent_events_le m hcb hlen a.1 a.2.1 a.2.2
      have h2 := addEvent_max_events m a.1 a.2.1 a.2.2
      have h3 := addEvent_compress_batch m a.1 a.2.1 a.2.2
      have := ih (addEvent m a.1 a.2.1 a.2.2) (by omega) (by omega)
      simpa [h2] using this

/-- C3 amended: for every sequence of additions applied to a fresh memory
with a positive compress_batch, the live event count never exceeds
max_events (after N > max_events additions it is at most max_events, not
exactly max_events). -/
theorem memory_live_count_at_most_max (adds : List (String × String × List String))
    (max_events compress_batch : ℕ) (hcb : 1 ≤ compress_batch) :
    (adds.foldl (fun acc a => addEvent acc a.1 a.2.1 a.2.2)
        (mkContextMemory max_events compress_batch)).events.length ≤ max_events := by
  simpa using
    foldl_addEvent_le adds (mkContextMemory max_events compress_batch) hcb
      (by simp [mkContextMemory])

/-- Witness for the amended C3 at 13 additions with the default sizes. -/
theorem memory_live_count_at_most_max_witness :
    ((List.replicate 13 ("tool", "x", ([] : List String))).foldl
        (fun acc a => addEvent acc a.1 a.2.1 a.2.2)
        (mkContextMemory 12 4)).events.length ≤ 12 :=
  memory_live_count_at_most_max _ 12 4 (by decide)

/-- C1 counterexample: in live mode (mock off, key set), a contract-violating
response is not fatal: a plan response with missing or empty steps yields the
built-in default plan with its 4 steps, a reflect response with no replan key
yields a replan-false reflection with reason invalid response, and an empty
summarize response yields the built-in default summary; no error is surfaced
to the caller. -/
theorem grok_violation_substitutes_defaults_counterexample :
    planFromResponse false "k" "q" {} = defaultPlan "q" ∧
      ((planFromResponse false "k" "q" {}).steps.getD []).length = 4 ∧
      reflectFromResponse false "k" {} { tool := "hybrid_search" } none
        = { replan := some false, reason := some "invalid response", new_steps := some [] } ∧
      summarizeFromResponse false "k" "q" [] none = defaultSummary "q" [] := by
  refine ⟨rfl, rfl, rfl, rfl⟩

/-- C1 amended: in live mode a contract violation in the response is never
fatal; no error is surfaced and the run continues.  A plan response with
missing or empty steps falls back to the built-in default plan; a reflect
response without the replan key falls back to a replan-false reflection with
reason invalid response, while one with the key is returned unchanged; a
summarize response that parses to an empty dictionary falls back to the
built-in default summary, while a nonempty parsed summarize response is
returned unchanged even when its answer is missing or empty (that violation
is not checked). -/
theorem grok_violation_absorbed_or_passed_through (grok_api_key query : String)
    (parsedPlan : PlanDict) (step : PStep) (observation : Observation)
    (evidence : List SerializedHit) (hkey : grok_api_key ≠ "") :
    (parsedPlan.steps.getD [] = [] →
        planFromResponse false grok_api_key query parsedPlan = defaultPlan query) ∧
      reflectFromResponse false grok_api_key step observation none
        = { replan := some false, reason := some "invalid response", new_steps := some [] } ∧
      (∀ r : ReflectionDict,
        reflectFromResponse false grok_api_key step observation (some r) = r) ∧
      summarizeFromResponse false grok_api_key query evidence none
        = defaultSummary query evidence ∧
      ∀ s : SummaryDict,
        summarizeFromResponse false grok_api_key query evidence (some s) = s := by
  have hb : (grok_api_key == "") = false := beq_eq_false_iff_ne.mpr hkey
  refine ⟨fun hsteps => ?_, ?_, fun r => ?_, ?_, fun s => ?_⟩
  · simp [planFromResponse, hb, hsteps]
  · simp [reflectFromResponse, hb]
  · simp [reflectFromResponse, hb]
  · simp [summarizeFromResponse, hb]
  · simp [summarizeFromResponse, hb]

/-- Witness for the amended C1: a concrete empty-steps plan response falls
back to the default plan, and a concrete summarize response whose answer is
present but empty is passed through unchanged. -/
theorem grok_violation_absorbed_or_passed_through_witness :
    planFromResponse false "key" "q2" {} = defaultPlan "q2" ∧
      summarizeFromResponse false "key" "q2" [] (some { answer := some "" })
        = { answer := some "" } :=
  ⟨(grok_violation_absorbed_or_passed_through "key" "q2" {} {}
      { tool := "hybrid_search" } [] (by decide)).1 rfl,
    (grok_violation_absorbed_or_passed_through "key" "q2" {} {}
      { tool := "hybrid_search" } [] (by decide)).2.2.2.2 { answer := some "" }⟩

/-- C9 counterexample: a hit whose paper id is the empty string establishes
the empty string as the most recently seen primary paper id, yet a
citation_graph step with paper_id auto then resolves to the first corpus
document id pA instead of that stored primary id, because the Python
expression `last_primary_paper or papers[0].paper_id` treats the empty string
as falsy. -/
theorem citation_graph_auto_counterexample :
    updateLastPrimary none { tool := "hybrid_search", hits := some [exHitEmptyPid] }
        = some "" ∧
      (resolveStepArgs 6 [paperEx] (some "") stepAuto).2.paper_id = some "pA" ∧
      (some "pA" : Option String) ≠ some "" := by
  decide

lemma applyQueryFallback_paper_id (step : PStep) (args : ToolKwargs) :
    (applyQueryFallback step args).paper_id = args.paper_id := by
  unfold applyQueryFallback
  split <;> rfl

lemma applyTopKDefault_paper_id (settings_top_k : ℕ) (args : ToolKwargs) :
    (applyTopKDefault settings_top_k args).paper_id = args.paper_id := by
  unfold applyTopKDefault
  split <;> rfl

lemma resolveStepArgs_citation_paper_id (settings_top_k : ℕ)
    (papers : List PaperDocument) (last : Option String) (step : PStep)
    (htool : step.tool = some "citation_graph")
    (hpid : paperIdUnsetEmptyOrAuto step.tool_args.paper_id = true) :
    (resolveStepArgs settings_top_k papers last step).2.paper_id
      = some (pyOrStr last (firstPaperId papers)) := by
  have hpid2 : paperIdUnsetEmptyOrAuto
      (applyTopKDefault settings_top_k (applyQueryFallback step step.tool_args)).paper_id
        = true := by
    rw [applyTopKDefault_paper_id, applyQueryFallback_paper_id]
    exact hpid
  unfold resolveStepArgs applyCitationPaperId
  rw [htool]
  simp [hpid2]

/-- C9 amended: when a step invokes citation_graph with paper_id unset, empty
or auto, the loop substitutes the most recently seen primary paper id when
that id is a nonempty string; when no primary paper has been established, or
when the stored primary id is the empty string, it substitutes the first
document id in corpus order.  The stored primary id is the paper id of the
first hit of the most recent observation that had hits and is unchanged by
observations without hits. -/
theorem citation_graph_auto_resolution (settings_top_k : ℕ)
    (papers : List PaperDocument) (last : Option String) (step : PStep) (p : String)
    (hpapers : papers ≠ [])
    (htool : step.tool = some "citation_graph")
    (hpid : paperIdUnsetEmptyOrAuto step.tool_args.paper_id = true) :
    (last = some p → p ≠ "" →
        (resolveStepArgs settings_top_k papers last step).2.paper_id = some p) ∧
      ((last = none ∨ last = some "") →
        (resolveStepArgs settings_top_k papers last step).2.paper_id
          = some ((papers.head hpapers).paper_id)) ∧
      (∀ (observation : Observation) (h : SerializedHit) (rest : List SerializedHit),
        observation.hits = some (h :: rest) →
        updateLastPrimary last observation = some h.paper_id) ∧
      (∀ observation : Observation, observation.hits.getD [] = [] →
        updateLastPrimary last observation = last) := by
  have hbase := resolveStepArgs_citation_paper_id settings_top_k papers last step htool hpid
  have hhead : firstPaperId papers = (papers.head hpapers).paper_id := by
    cases papers with
    | nil => exact absurd rfl hpapers
    | cons q qs => rfl
  refine ⟨?_, ?_, ?_, ?_⟩
  · intro hlast hp
    rw [hbase, hlast]
    simp [pyOrStr, beq_eq_false_iff_ne.mpr hp]
  · intro hlast
    rw [hbase, ← hhead]
    rcases hlast with h | h <;> rw [h] <;> simp [pyOrStr]
  · intro observation h rest hobs
    simp [updateLastPrimary, hobs]
  · intro observation hobs
    simp [updateLastPrimary, hobs]

/-- Witness for the amended C9: a nonempty stored primary id pB is
substituted for paper_id auto. -/
theorem citation_graph_auto_resolution_witness :
    (resolveStepArgs 6 [paperEx] (some "pB") stepAuto).2.paper_id = some "pB" :=
  (citation_graph_auto_resolution 6 [paperEx] (some "pB") stepAuto "pB"
      (by decide) rfl (by decide)).1 rfl (by decide)

lemma poolLookup_append (pool₁ pool₂ : List (String × SerializedHit)) (id : String) :
    poolLookup (pool₁ ++ pool₂) id = (poolLookup pool₁ id).or (poolLookup pool₂ id) := by
  unfold poolLookup
  rw [List.find?_append]
  cases List.find? (fun p => p.1 == id) pool₁ <;> simp

lemma poolLookup_single (id : String) (hit : SerializedHit) :
    poolLookup [(id, hit)] id = some hit := by
  simp [poolLookup]

lemma poolLookup_single_ne (id key : String) (hit : SerializedHit) (hne : id ≠ key) :
    poolLookup [(key, hit)] id = none := by
  simp [poolLookup, List.find?, beq_eq_false_iff_ne.mpr (Ne.symm hne)]

lemma poolLookup_map_replace_self
    (pool : List (String × SerializedHit)) (id : String) (hit : SerializedHit) :
    poolLookup (pool.map (fun p => if p.1 == id then (p.1, hit) else p)) id
      = (poolLookup pool id).map (fun _ => hit) := by
  induction pool with
  | nil => rfl
  | cons p ps ih =>
      unfold poolLookup at ih ⊢
      rw [List.map_cons]
      by_cases hp : (p.1 == id) = true
      · rw [if_pos hp]
        rw [List.find?_cons_of_pos (p := fun (q : String × SerializedHit) => q.1 == id)
          (a := (p.1, hit)) _ hp]
        rw [List.find?_cons_of_pos (p := fun (q : String × SerializedHit) => q.1 == id)
          (a := p) _ hp]
        rfl
      · rw [if_neg hp]
        rw [List.find?_cons_of_neg (p := fun (q : String × SerializedHit) => q.1 == id) _ hp]
        rw [List.find?_cons_of_neg (p := fun (q : String × SerializedHit) => q.1 == id) _ hp]
        exact ih

lemma poolLookup_map_replace_other
    (pool : List (String × SerializedHit)) (id rid : String) (hit : SerializedHit)
    (hne : id ≠ rid) :
    poolLookup (pool.map (fun p => if p.1 == rid then (p.1, hit) else p)) id
      = poolLookup pool id := by
  induction pool with
  | nil => rfl
  | cons p ps ih =>
      unfold poolLookup at ih ⊢
      rw [List.map_cons]
      by_cases hpr : (p.1 == rid) = true
      · have hpid : ¬ (p.1 == id) = true := by
          intro hcontra
          exact hne ((eq_of_beq hcontra).symm.trans (eq_of_beq hpr))
        rw [if_pos hpr]
        rw [List.find?_cons_of_neg (p := fun (q : String × SerializedHit) => q.1 == id)
          (a := (p.1, hit)) _ hpid]
        rw [List.find?_cons_of_neg (p := fun (q : String × SerializedHit) => q.1 == id)
          (a := p) _ hpid]
        exact ih
      · rw [if_neg hpr]
        by_cases hp : (p.1 == id) = true
        · rw [List.find?_cons_of_pos (p := fun (q : String × SerializedHit) => q.1 == id) _ hp,
            List.find?_cons_of_pos (p := fun (q : String × SerializedHit) => q.1 == id) _ hp]
        · rw [List.find?_cons_of_neg (p := fun (q : String × SerializedHit) => q.1 == id) _ hp,
            List.find?_cons_of_neg (p := fun (q : String × SerializedHit) => q.1 == id) _ hp]
          exact ih

lemma poolLookup_poolMerge_self (pool : List (String × SerializedHit))
    (hit : SerializedHit) :
    poolLookup (poolMerge pool hit) hit.chunk_id
      = some (match poolLookup pool hit.chunk_id with
              | none => hit
              | some current =>
                  if current.hybrid_score < hit.hybrid_score then hit else current) := by
  unfold poolMerge
  cases hprev : poolLookup pool hit.chunk_id with
  | none =>
      dsimp only
      rw [poolLookup_append, hprev, poolLookup_single]
      rfl
  | some current =>
      dsimp only
      by_cases hlt : current.hybrid_score < hit.hybrid_score
      · rw [if_pos hlt, poolLookup_map_replace_self, hprev, if_pos hlt]
        rfl
      · rw [if_neg hlt, hprev, if_neg hlt]

lemma poolLookup_poolMerge_other (pool : List (String × SerializedHit))
    (hit : SerializedHit) (id : String) (hne : id ≠ hit.chunk_id) :
    poolLookup (poolMerge pool hit) id = poolLookup pool id := by
  unfold poolMerge
  cases hprev : poolLookup pool hit.chunk_id with
  | none =>
      dsimp only
      rw [poolLookup_append, poolLookup_single_ne _ _ _ hne]
      cases poolLookup pool id <;> rfl
  | some current =>
      dsimp only
      by_cases hlt : current.hybrid_score < hit.hybrid_score
      · rw [if_pos hlt, poolLookup_map_replace_other _ _ _ _ hne]
      · rw [if_neg hlt]

lemma poolInv_merge {hs : List SerializedHit} {pool : List (String × SerializedHit)}
    (h : SerializedHit) (inv : PoolInv hs pool) : PoolInv (hs ++ [h]) (poolMerge pool h) := by
  obtain ⟨inv1, inv2⟩ := inv
  constructor
  · intro id ph hlook
    by_cases hid : id = h.chunk_id
    · subst hid
      rw [poolLookup_poolMerge_self] at hlook
      cases hprev : poolLookup pool h.chunk_id with
      | none =>
          simp only [hprev] at hlook
          have hph : h = ph := Option.some.inj hlook
          subst hph
          refine ⟨List.mem_append_right _ (List.mem_singleton_self h), rfl, ?_⟩
          intro h' hmem' hcid'
          rcases List.mem_append.mp hmem' with hh | hh
          · have := inv2 h' hh
            rw [hcid'] at this
            exact absurd hprev this
          · rw [List.mem_singleton.mp hh]
      | some current =>
          simp only [hprev] at hlook
          by_cases hlt : current.hybrid_score < h.hybrid_score
          · rw [if_pos hlt] at hlook
            have hph : h = ph := Option.some.inj hlook
            subst hph
            obtain ⟨_, _, hbound⟩ := inv1 _ _ hprev
            refine ⟨List.mem_append_right _ (List.mem_singleton_self h), rfl, ?_⟩
            intro h' hmem' hcid'
            rcases List.mem_append.mp hmem' with hh | hh
            · exact le_of_lt (lt_of_le_of_lt (hbound h' hh hcid') hlt)
            · rw [List.mem_singleton.mp hh]
          · rw [if_neg hlt] at hlook
            have hph : current = ph := Option.some.inj hlook
            subst hph
            obtain ⟨hmem, hcid, hbound⟩ := inv1 _ _ hprev
            refine ⟨List.mem_append_left _ hmem, hcid, ?_⟩
            intro h' hmem' hcid'
            rcases List.mem_append.mp hmem' with hh | hh
            · exact hbound h' hh hcid'
            · rw [List.mem_singleton.mp hh]
              exact not_lt.mp hlt
    · rw [poolLookup_poolMerge_other pool h id hid] at hlook
      obtain ⟨hmem, hcid, hbound⟩ := inv1 id ph hlook
      refine ⟨List.mem_append_left _ hmem, hcid, ?_⟩
      intro h' hmem' hcid'
      rcases List.mem_append.mp hmem' with hh | hh
      · exact hbound h' hh hcid'
      · rw [List.mem_singleton.mp hh] at hcid'
        exact absurd hcid'.symm hid
  · intro h' hmem'
    rcases List.mem_append.mp hmem' with hh | hh
    · by_cases hcid : h'.chunk_id = h.chunk_id
      · rw [hcid, poolLookup_poolMerge_self]
        simp
      · rw [poolLookup_poolMerge_other pool h _ hcid]
        exact inv2 h' hh
    · rw [List.mem_singleton.mp hh, poolLookup_poolMerge_self]
      simp

lemma poolInv_foldl (hits : List SerializedHit) :
    ∀ (hs : List SerializedHit) (pool : List (String × SerializedHit)),
      PoolInv hs pool → PoolInv (hs ++ hits) (List.foldl poolMerge pool hits) := by
  induction hits with
  | nil => intro hs pool inv; simpa using inv
  | cons h rest ih =>
      intro hs pool inv
      have step := poolInv_merge h inv
      have := ih (hs ++ [h]) (poolMerge pool h) step
      simpa using this

lemma poolInv_of_foldl (hits : List SerializedHit) :
    PoolInv hits (List.foldl poolMerge [] hits) := by
  have base : PoolInv [] [] := by
    constructor
    · intro id' ph' hl
      simp [poolLookup] at hl
    · intro h hh
      simp at hh
  have inv := poolInv_foldl hits [] [] base
  simpa using inv

/-- C7: the evidence pool built by folding the merge of agent.py lines
186-189 over the hits observed so far maps each chunk id to a hit carrying
the maximum hybrid score observed for that chunk id: every pooled entry is an
observed hit of that chunk id with maximal hybrid score, and conversely every
observed hit's chunk id has a pooled entry.  The merge is idempotent: merging
a hit whose pooled entry already has an equal or higher hybrid score leaves
the pool unchanged. -/
theorem evidence_pool_max_and_idempotent :
    (∀ (hits : List SerializedHit) (id : String) (ph : SerializedHit),
        poolLookup (List.foldl poolMerge [] hits) id = some ph →
        ph ∈ hits ∧ ph.chunk_id = id ∧
          ∀ h ∈ hits, h.chunk_id = id → h.hybrid_score ≤ ph.hybrid_score) ∧
      (∀ (hits : List SerializedHit), ∀ h ∈ hits,
        poolLookup (List.foldl poolMerge [] hits) h.chunk_id ≠ none) ∧
      ∀ (pool : List (String × SerializedHit)) (hit current : SerializedHit),
        poolLookup pool hit.chunk_id = some current →
        hit.hybrid_score ≤ current.hybrid_score →
        poolMerge pool hit = pool := by
  refine ⟨?_, ?_, ?_⟩
  · intro hits id ph hlook
    exact (poolInv_of_foldl hits).1 id ph hlook
  · intro hits h hh
    exact (poolInv_of_foldl hits).2 h hh
  · intro pool hit current hlook hle
    unfold poolMerge
    rw [hlook]
    dsimp only
    rw [if_neg (not_lt.mpr hle)]

/-- Witness for C7: folding a single hit pools it, its chunk id has a pooled
entry, and merging a hit whose pooled entry has a higher score leaves the
pool unchanged. -/
theorem evidence_pool_max_and_idempotent_witness :
    exHitA ∈ [exHitA] ∧
      poolLookup (List.foldl poolMerge [] [exHitA]) exHitA.chunk_id ≠ none ∧
      poolMerge [("c1", exHitB)] exHitA = [("c1", exHitB)] :=
  ⟨(evidence_pool_max_and_idempotent.1 [exHitA] "c1" exHitA (by decide)).1,
    evidence_pool_max_and_idempotent.2.1 [exHitA] exHitA (by decide),
    evidence_pool_max_and_idempotent.2.2 [("c1", exHitB)] exHitA exHitB
      (by decide) (by decide)⟩

lemma l2norm_nil : l2norm [] = 0 := by
  simp [l2norm]

lemma cosine_eq_semanticScoreSpec (a b : Vec) :
    cosine_similarity a b = semanticScoreSpec a b := by
  unfold cosine_similarity semanticScoreSpec
  by_cases hab : a = [] ∨ b = []
  · rw [if_pos hab]
    have hn : l2norm a = 0 ∨ l2norm b = 0 := by
      rcases hab with h | h
      · left; rw [h]; exact l2norm_nil
      · right; rw [h]; exact l2norm_nil
    rcases hn with h | h
    · rw [if_pos (Or.inl h)]
    · rw [if_pos (Or.inr (Or.inl h))]
  · rw [if_neg hab]
    by_cases hn : l2norm a = 0 ∨ l2norm b = 0
    · rw [if_pos hn]
      rcases hn with h | h
      · rw [if_pos (Or.inl h)]
      · rw [if_pos (Or.inr (Or.inl h))]
    · rw [if_neg hn]
      by_cases hc : vecCommon a b = []
      · rw [if_pos (Or.inr (Or.inr hc))]
        have hdot : dotCommon a b = 0 := by simp [dotCommon, hc]
        rw [hdot, zero_div]
      · rw [if_neg (by
          intro h
          rcases h with h | h | h
          · exact hn (Or.inl h)
          · exact hn (Or.inr h)
          · exact hc h)]

lemma keyword_eq_spec (query : String) (chunk : PaperChunk) :
    ((overlapOf query chunk).length : ℝ) / ((max (queryTokenSet query).length 1 : ℕ) : ℝ)
      = keywordScoreSpec (queryTokenSet query) (chunkTokenSet chunk) := by
  unfold keywordScoreSpec overlapOf
  by_cases hq : queryTokenSet query = []
  · rw [if_pos hq, hq]
    simp
  · rw [if_neg hq]
    have hlen : 1 ≤ (queryTokenSet query).length :=
      List.length_pos.mpr hq
    rw [Nat.max_eq_left hlen]

/-- C5: the scores computed by the search loop body match the specification
formulas: keyword_score is the intersection-over-query-set ratio (0 for a
tokenless query), semantic_score is the cosine similarity with the stated
zero cases, and hybrid_score is the alpha-blend of the two. -/
theorem retrieval_score_formulas (chunks : List PaperChunk) (alpha : ℝ)
    (query : String) (chunk : PaperChunk) :
    (hitScores chunks alpha query chunk).1
        = keywordScoreSpec (queryTokenSet query) (chunkTokenSet chunk) ∧
      (hitScores chunks alpha query chunk).2.1
        = semanticScoreSpec (tfidfVector (idfOf chunks) (tokenize query))
            (tfidfVector (idfOf chunks) (chunkTokensOf chunk)) ∧
      (hitScores chunks alpha query chunk).2.2
        = alpha * (hitScores chunks alpha query chunk).2.1
          + (1 - alpha) * (hitScores chunks alpha query chunk).1 :=
  ⟨keyword_eq_spec query chunk, cosine_eq_semanticScoreSpec _ _, rfl⟩

/-- C4: every hit returned by search has hybrid_score strictly greater than
0, the returned list is non-increasing lexicographically in
(hybrid_score, semantic_score, year), and its length is at most the requested
top_k. -/
theorem search_positive_sorted_truncated (chunks : List PaperChunk) (alpha : ℝ)
    (query : String) (top_k : ℕ) :
    (search chunks alpha query top_k).Forall (fun h => 0 < h.hybrid_score) ∧
      List.Pairwise (fun a b => hitSortKey b ≤ hitSortKey a)
        (search chunks alpha query top_k) ∧
      (search chunks alpha query top_k).length ≤ top_k := by
  refine ⟨?_, ?_, ?_⟩
  · rw [List.forall_iff_forall_mem]
    intro h hmem
    unfold search at hmem
    have hmem2 := List.mem_of_mem_take hmem
    rw [List.mem_insertionSort] at hmem2
    obtain ⟨c, _, hc⟩ := List.mem_filterMap.mp hmem2
    by_cases hle : (hitScores chunks alpha query c).2.2 ≤ 0
    · rw [if_pos hle] at hc
      exact absurd hc (by simp)
    · rw [if_neg hle] at hc
      rw [← Option.some.inj hc]
      exact lt_of_not_le hle
  · have hs := List.sorted_insertionSort hitBefore
      (chunks.filterMap (fun chunk =>
        if (hitScores chunks alpha query chunk).2.2 ≤ 0 then none
        else some ⟨chunk, (hitScores chunks alpha query chunk).1,
          (hitScores chunks alpha query chunk).2.1,
          (hitScores chunks alpha query chunk).2.2⟩))
    unfold search
    exact List.Pairwise.sublist (List.take_sublist _ _) hs
  · unfold search
    rw [List.length_take]
    exact min_le_left _ _

end ResearchAgent
